import Mathlib

/-!
Shallow embedding of the speech arbitration controller of `src/App.js`
(the `speak` / `cancelAllSpeech` / `speakWithOpenAI` / `speakBrowser` layer).

Strings are modelled as sequences of unicode scalar values.  The
event-driven concurrency of the source is modelled as a small-step system:
a `SpeechState` holds the module-level globals, a `Task` is a `speak` call
suspended at one of the source's `await` points (the debounce timer, the
`fetch`, the `response.json()` of the error branch, the `response.blob()`),
and an `Action` is one event-loop turn (a new call from the UI, a timer
callback, a network resolution).  Code between two suspension points runs
atomically, exactly as in the browser's single-threaded model where
microtasks run to completion before the next macrotask.

Observable effects (which backend was entered, network requests, audio
playback, local synthesis) are recorded in a log, each entry tagged with
the generation token `mySeq` of the `speak` call that produced it.
-/

namespace GymBuddy

/-- Characters removed by the JavaScript string `trim` method. -/
def isJsSpace (c : Char) : Bool :=
  let n := c.toNat
  n == 0x20 || n == 0x09 || n == 0x0A || n == 0x0D || n == 0x0B || n == 0x0C ||
  n == 0xA0 || n == 0x1680 || (decide (0x2000 ≤ n) && decide (n ≤ 0x200A)) ||
  n == 0x2028 || n == 0x2029 || n == 0x202F || n == 0x205F || n == 0x3000 ||
  n == 0xFEFF

/-- JavaScript `s.trim()` on the character list of `s`. -/
def jsTrim (cs : List Char) : List Char :=
  ((cs.dropWhile isJsSpace).reverse.dropWhile isJsSpace).reverse

/-- The guard of `speak` (line 158): `!text?.trim()` is true when the text is
empty or whitespace-only. -/
def blankQ (text : String) : Bool :=
  (jsTrim text.data).isEmpty

/-- Code points of the emoji character class stripped by `speakWithOpenAI`
(line 49): 🔥💪⚡🎯🏆🏋(+VS16)🥗😴🤖📊✨🎉🏅📋📅🔒🎙(+VS16)🌟⚡🪨🪸🌿📖. -/
def openaiEmojiCodes : List Nat :=
  [0x1F525, 0x1F4AA, 0x26A1, 0x1F3AF, 0x1F3C6, 0x1F3CB, 0xFE0F, 0x1F957,
   0x1F634, 0x1F916, 0x1F4CA, 0x2728, 0x1F389, 0x1F3C5, 0x1F4CB, 0x1F4C5,
   0x1F512, 0x1F399, 0x1F31F, 0x1FAA8, 0x1FAB8, 0x1F33F, 0x1F4D6]

def inOpenaiEmoji (c : Char) : Bool :=
  openaiEmojiCodes.contains c.toNat

/-- Code points of the character class stripped by `speakBrowser` (line 121):
`*`, `#`, 🔥💪⚡🎯🏆🏋(+VS16). -/
def browserStripCodes : List Nat :=
  [0x2A, 0x23, 0x1F525, 0x1F4AA, 0x26A1, 0x1F3AF, 0x1F3C6, 0x1F3CB, 0xFE0F]

def inBrowserStrip (c : Char) : Bool :=
  browserStripCodes.contains c.toNat

/-- JavaScript `replace(/\*\*\/g, '')`: drop non-overlapping `**` pairs,
scanning left to right. -/
def stripDoubleStar : List Char → List Char
  | [] => []
  | '*' :: '*' :: rest => stripDoubleStar rest
  | c :: rest => c :: stripDoubleStar rest

/-- Sanitization of `speakWithOpenAI` (lines 48-53): strip the emoji class,
drop `**`, newline to `. `, drop non-ASCII, trim, cap at 1000. -/
def openaiClean (text : String) : String :=
  let s1 := text.data.filter (fun c => !(inOpenaiEmoji c))
  let s2 := stripDoubleStar s1
  let s3 := s2.flatMap (fun c => if c == '\n' then ['.', ' '] else [c])
  let s4 := s3.filter (fun c => decide (c.toNat ≤ 0x7F))
  String.mk ((jsTrim s4).take 1000)

/-- Sanitization of `speakBrowser` (line 121): strip its character class,
newline to space, trim. -/
def browserClean (text : String) : String :=
  let s1 := text.data.filter (fun c => !(inBrowserStrip c))
  let s2 := s1.map (fun c => if c == '\n' then ' ' else c)
  String.mk (jsTrim s2)

/-- A `speechSynthesis` voice, with the fields `speakBrowser` reads. -/
structure Voice where
  voiceURI : String
  name : String
  lang : String
  localService : Bool
deriving DecidableEq, Repr

/-- The `v.lang.startsWith('en')` test of `speakBrowser`. -/
def startsWithEn (s : String) : Bool :=
  match s.data with
  | 'e' :: 'n' :: _ => true
  | _ => false

/-- Voice selection of `speakBrowser` (lines 124-127):
`selectedVoiceId ? find(uri = id) : (find(en ∧ ¬local) ∨ find(en) ∨ voices[0])`. -/
def chooseVoice (selectedVoiceId : String) (voices : List Voice) : Option Voice :=
  if selectedVoiceId == ("") then
    ((voices.find? (fun v => startsWithEn v.lang && !v.localService)).orElse
      (fun _ => voices.find? (fun v => startsWithEn v.lang))).orElse
      (fun _ => voices.head?)
  else
    voices.find? (fun v => v.voiceURI == selectedVoiceId)

/-- Observable effects, tagged with the generation token of the `speak` call
that produced them. -/
inductive Obs where
  | openaiInvoked (seq : Nat) (text : String)
  | networkRequest (seq : Nat) (clean : String) (voice : String)
  | browserInvoked (seq : Nat) (text : String)
  | synthSpeak (seq : Nat) (clean : String) (voice : Option Voice)
  | audioPlay (seq : Nat) (audioId : Nat) (clean : String)
deriving DecidableEq, Repr

def obsSeq : Obs → Nat
  | .openaiInvoked s _ => s
  | .networkRequest s _ _ => s
  | .browserInvoked s _ => s
  | .synthSpeak s _ _ => s
  | .audioPlay s _ _ => s

/-- A `speak` call suspended at one of the source's `await` points. -/
inductive Task where
  | atTimer (text : String) (mySeq : Nat) (tid : Nat)
  | atFetch (text : String) (clean : String) (mySeq : Nat)
  | atJson (text : String) (mySeq : Nat)
  | atBlob (text : String) (clean : String) (mySeq : Nat)
deriving DecidableEq, Repr

def taskSeq : Task → Nat
  | .atTimer _ s _ => s
  | .atFetch _ _ s => s
  | .atJson _ s => s
  | .atBlob _ _ s => s

/-- The module-level globals of the voice system, plus an observation log.
Timer and audio handles are identified by freshly allocated numbers. -/
structure SpeechState where
  openaiApiKey : String
  openaiVoice : String
  selectedVoiceId : String
  browserVoices : List Voice
  synthAvailable : Bool
  speakSeq : Nat
  pendingSpeakTimer : Option Nat
  currentTTSAudio : Option Nat
  synthUtterance : Option String
  nextTimerId : Nat
  nextAudioId : Nat
  log : List Obs
deriving DecidableEq, Repr

/-- The whole system: globals plus the suspended `speak` calls. -/
structure Sys where
  st : SpeechState
  tasks : List Task
deriving DecidableEq, Repr

/-- Function `speakBrowser(text)` (lines 118-133), run atomically: log the
entry, stop the engine, sanitize, speak unless the sanitized text is
empty. -/
def speakBrowser (seq : Nat) (text : String) (st : SpeechState) : SpeechState :=
  let st1 := { st with log := st.log ++ [.browserInvoked seq text] }
  if !st1.synthAvailable then st1
  else
    let st2 := { st1 with synthUtterance := none }
    let clean := browserClean text
    if clean == ("") then st2
    else
      { st2 with
        synthUtterance := some clean,
        log := st2.log ++
          [.synthSpeak seq clean (chooseVoice st2.selectedVoiceId st2.browserVoices)] }

/-- Function `cancelAllSpeech()` (lines 143-155): bump the token, clear a
pending debounce timer, stop local synthesis, stop and release remote
audio. -/
def cancelAllSpeech (st : SpeechState) : SpeechState :=
  let st1 := { st with speakSeq := st.speakSeq + 1 }
  let st2 :=
    if st1.pendingSpeakTimer ≠ none then { st1 with pendingSpeakTimer := none } else st1
  let st3 := if st2.synthAvailable then { st2 with synthUtterance := none } else st2
  if st3.currentTTSAudio ≠ none then { st3 with currentTTSAudio := none } else st3

/-- The synchronous prefix of `speak(text)` (lines 157-170): the
`!text?.trim()` guard, `cancelAllSpeech`, capture of `mySeq`, and the
scheduling of the debounce timer.  The rest of the call becomes an
`atTimer` task. -/
def doSpeak (text? : Option String) (sys : Sys) : Sys :=
  match text? with
  | none => sys
  | some text =>
    if blankQ text then sys
    else
      let st0 := cancelAllSpeech sys.st
      let mySeq := st0.speakSeq
      let tid := st0.nextTimerId
      let st1 := { st0 with pendingSpeakTimer := some tid, nextTimerId := tid + 1 }
      { st := st1, tasks := sys.tasks ++ [.atTimer text mySeq tid] }

/-- Resumption after the debounce timer fires: the timer callback
(lines 166-169) nulls the handle, then `speak` re-checks the token
(line 171) and enters `speakWithOpenAI` (lines 45-54) up to its first
`await`; without a key or with empty sanitized text `speakWithOpenAI`
returns `false` and `speak` falls through to `speakBrowser`
(lines 173-175). -/
def resumeTimer (text : String) (mySeq : Nat) (st : SpeechState) : SpeechState × Option Task :=
  let st0 := { st with pendingSpeakTimer := none }
  if st0.speakSeq ≠ mySeq then (st0, none)
  else
    let st1 := { st0 with log := st0.log ++ [.openaiInvoked mySeq text] }
    if st1.openaiApiKey == ("") then
      (if st1.speakSeq ≠ mySeq then st1 else speakBrowser mySeq text st1, none)
    else
      let clean := openaiClean text
      if clean == ("") then
        (if st1.speakSeq ≠ mySeq then st1 else speakBrowser mySeq text st1, none)
      else
        ({ st1 with log := st1.log ++ [.networkRequest mySeq clean st1.openaiVoice] },
         some (.atFetch text clean mySeq))

/-- Resumption when the `fetch` of `speakWithOpenAI` resolves (line 71):
first the staleness check of line 72 (returning `true` makes `speak`
return at line 174 without fallback), then the `response.ok` split —
the error branch suspends at `response.json()` (line 75), the success
branch at `response.blob()` (line 79). -/
def stepFetch (st : SpeechState) (text clean : String) (mySeq : Nat) (ok : Bool) :
    SpeechState × Option Task :=
  if st.speakSeq ≠ mySeq then (st, none)
  else if ok = false then (st, some (.atJson text mySeq))
  else (st, some (.atBlob text clean mySeq))

/-- Resumption on the paths where `speakWithOpenAI` ends up returning
`false` after a suspension (the `response.json()` of the error branch, or
a thrown network error caught at line 89): `speak` re-checks the token at
line 174 and, only if still current, calls `speakBrowser` with the
original text (line 175). -/
def stepCatch (st : SpeechState) (text : String) (mySeq : Nat) :
    SpeechState × Option Task :=
  if st.speakSeq ≠ mySeq then (st, none)
  else (speakBrowser mySeq text st, none)

/-- Resumption when `response.blob()` resolves (line 79): the staleness
check of line 80, then audio creation and playback (lines 82-88);
`speakWithOpenAI` returns `true`, so `speak` does not fall back. -/
def stepBlob (st : SpeechState) (_text clean : String) (mySeq : Nat) :
    SpeechState × Option Task :=
  if st.speakSeq ≠ mySeq then (st, none)
  else
    let aid := st.nextAudioId
    ({ st with
        currentTTSAudio := some aid,
        nextAudioId := aid + 1,
        log := st.log ++ [.audioPlay mySeq aid clean] }, none)

def isTimerTask (tid : Nat) : Task → Bool
  | .atTimer _ _ t => t == tid
  | _ => false

def isFetchTask (s : Nat) : Task → Bool
  | .atFetch _ _ q => q == s
  | _ => false

def isJsonTask (s : Nat) : Task → Bool
  | .atJson _ q => q == s
  | _ => false

def isBlobTask (s : Nat) : Task → Bool
  | .atBlob _ _ q => q == s
  | _ => false

/-- The timer with id `tid` fires.  Only possible while that timer is still
the scheduled one (`clearTimeout` in `cancelAllSpeech` prevents a cleared
timer from ever firing — the promise of line 165 is then never resolved
and the suspended `speak` call is abandoned). -/
def doTimer (tid : Nat) (sys : Sys) : Sys :=
  if sys.st.pendingSpeakTimer = some tid then
    match sys.tasks.find? (isTimerTask tid) with
    | some (.atTimer t mySeq _) =>
        { st := (resumeTimer t mySeq sys.st).1,
          tasks := sys.tasks.eraseP (isTimerTask tid) ++
            ((resumeTimer t mySeq sys.st).2).toList }
    | _ => sys
  else sys

/-- The network call of the task with token `s` resolves with status
`ok`. -/
def doFetch (s : Nat) (ok : Bool) (sys : Sys) : Sys :=
  match sys.tasks.find? (isFetchTask s) with
  | some (.atFetch text clean q) =>
      { st := (stepFetch sys.st text clean q ok).1,
        tasks := sys.tasks.eraseP (isFetchTask s) ++
          ((stepFetch sys.st text clean q ok).2).toList }
  | _ => sys

/-- The network call of the task with token `s` rejects; the `catch` of
line 89 returns `false`. -/
def doFetchThrow (s : Nat) (sys : Sys) : Sys :=
  match sys.tasks.find? (isFetchTask s) with
  | some (.atFetch text _ q) =>
      { st := (stepCatch sys.st text q).1,
        tasks := sys.tasks.eraseP (isFetchTask s) ++ ((stepCatch sys.st text q).2).toList }
  | _ => sys

/-- The `response.json()` of the error branch settles; `speakWithOpenAI`
returns `false`. -/
def doJson (s : Nat) (sys : Sys) : Sys :=
  match sys.tasks.find? (isJsonTask s) with
  | some (.atJson text q) =>
      { st := (stepCatch sys.st text q).1,
        tasks := sys.tasks.eraseP (isJsonTask s) ++ ((stepCatch sys.st text q).2).toList }
  | _ => sys

/-- The `response.blob()` of the task with token `s` resolves. -/
def doBlob (s : Nat) (sys : Sys) : Sys :=
  match sys.tasks.find? (isBlobTask s) with
  | some (.atBlob text clean q) =>
      { st := (stepBlob sys.st text clean q).1,
        tasks := sys.tasks.eraseP (isBlobTask s) ++ ((stepBlob sys.st text clean q).2).toList }
  | _ => sys

/-- The `response.blob()` of the task with token `s` rejects; the `catch`
of line 89 returns `false`. -/
def doBlobThrow (s : Nat) (sys : Sys) : Sys :=
  match sys.tasks.find? (isBlobTask s) with
  | some (.atBlob text _ q) =>
      { st := (stepCatch sys.st text q).1,
        tasks := sys.tasks.eraseP (isBlobTask s) ++ ((stepCatch sys.st text q).2).toList }
  | _ => sys

/-- The `onended` / `onerror` handler of a created audio element
(lines 85-86) nulls the audio handle. -/
def doAudioEnd (aid : Nat) (sys : Sys) : Sys :=
  if aid < sys.st.nextAudioId then
    { sys with st := { sys.st with currentTTSAudio := none } }
  else sys

/-- One event-loop turn. -/
inductive Action where
  | callSpeak (text : Option String)
  | callCancelAll
  | timerFires (tid : Nat)
  | fetchResolves (mySeq : Nat) (ok : Bool)
  | fetchThrows (mySeq : Nat)
  | jsonResolves (mySeq : Nat)
  | blobResolves (mySeq : Nat)
  | blobThrows (mySeq : Nat)
  | audioEnds (aid : Nat)
deriving DecidableEq, Repr

def doAction (sys : Sys) : Action → Sys
  | .callSpeak t => doSpeak t sys
  | .callCancelAll => { sys with st := cancelAllSpeech sys.st }
  | .timerFires tid => doTimer tid sys
  | .fetchResolves s ok => doFetch s ok sys
  | .fetchThrows s => doFetchThrow s sys
  | .jsonResolves s => doJson s sys
  | .blobResolves s => doBlob s sys
  | .blobThrows s => doBlobThrow s sys
  | .audioEnds a => doAudioEnd a sys

def run (sys : Sys) (acts : List Action) : Sys :=
  acts.foldl doAction sys

/-- Startup state of the module, with the stored credential `key`. -/
def initState (key : String) : SpeechState :=
  { openaiApiKey := key
    openaiVoice := ("nova")
    selectedVoiceId := ("")
    browserVoices := []
    synthAvailable := true
    speakSeq := 0
    pendingSpeakTimer := none
    currentTTSAudio := none
    synthUtterance := none
    nextTimerId := 0
    nextAudioId := 0
    log := [] }

def initSys (key : String) : Sys :=
  { st := initState key, tasks := [] }

def isNetworkObs : Obs → Bool
  | .networkRequest _ _ _ => true
  | _ => false

def isBrowserObs : Obs → Bool
  | .browserInvoked _ _ => true
  | _ => false

def isSynthObs : Obs → Bool
  | .synthSpeak _ _ _ => true
  | _ => false

def networkCount (l : List Obs) : Nat := (l.filter isNetworkObs).length

def browserCount (l : List Obs) : Nat := (l.filter isBrowserObs).length

def synthCount (l : List Obs) : Nat := (l.filter isSynthObs).length

/-! Basic facts about the atomic segments: which global fields they leave
untouched, and how they extend the log. -/

@[simp] theorem run_nil (sys : Sys) : run sys [] = sys := rfl

@[simp] theorem run_cons (sys : Sys) (a : Action) (acts : List Action) :
    run sys (a :: acts) = run (doAction sys a) acts := rfl

@[simp] theorem speakBrowser_speakSeq (q : Nat) (text : String) (st : SpeechState) :
    (speakBrowser q text st).speakSeq = st.speakSeq := by
  simp only [speakBrowser]
  split_ifs <;> rfl

@[simp] theorem speakBrowser_pending (q : Nat) (text : String) (st : SpeechState) :
    (speakBrowser q text st).pendingSpeakTimer = st.pendingSpeakTimer := by
  simp only [speakBrowser]
  split_ifs <;> rfl

@[simp] theorem speakBrowser_nextTimerId (q : Nat) (text : String) (st : SpeechState) :
    (speakBrowser q text st).nextTimerId = st.nextTimerId := by
  simp only [speakBrowser]
  split_ifs <;> rfl

/-- The function `speakBrowser` only appends to the log, and every appended
entry carries the token of the call. -/
theorem speakBrowser_log (q : Nat) (text : String) (st : SpeechState) :
    ∃ l, (speakBrowser q text st).log = st.log ++ l ∧ ∀ e ∈ l, obsSeq e = q := by
  simp only [speakBrowser]
  split_ifs
  · exact ⟨[.browserInvoked q text], rfl, by simp [obsSeq]⟩
  · exact ⟨[.browserInvoked q text], rfl, by simp [obsSeq]⟩
  · refine ⟨[.browserInvoked q text,
      .synthSpeak q (browserClean text) (chooseVoice st.selectedVoiceId st.browserVoices)],
      by simp, by simp [obsSeq]⟩

@[simp] theorem cancelAllSpeech_speakSeq (st : SpeechState) :
    (cancelAllSpeech st).speakSeq = st.speakSeq + 1 := by
  simp only [cancelAllSpeech]
  split_ifs <;> rfl

@[simp] theorem cancelAllSpeech_pending (st : SpeechState) :
    (cancelAllSpeech st).pendingSpeakTimer = none := by
  simp only [cancelAllSpeech]
  split_ifs with h1 <;> simp_all

@[simp] theorem cancelAllSpeech_nextTimerId (st : SpeechState) :
    (cancelAllSpeech st).nextTimerId = st.nextTimerId := by
  simp only [cancelAllSpeech]
  split_ifs <;> rfl

@[simp] theorem cancelAllSpeech_log (st : SpeechState) :
    (cancelAllSpeech st).log = st.log := by
  simp only [cancelAllSpeech]
  split_ifs <;> rfl

@[simp] theorem resumeTimer_speakSeq (text : String) (q : Nat) (st : SpeechState) :
    ((resumeTimer text q st).1).speakSeq = st.speakSeq := by
  simp only [resumeTimer]
  split_ifs <;> simp

@[simp] theorem resumeTimer_pending (text : String) (q : Nat) (st : SpeechState) :
    ((resumeTimer text q st).1).pendingSpeakTimer = none := by
  simp only [resumeTimer]
  split_ifs <;> simp

@[simp] theorem resumeTimer_nextTimerId (text : String) (q : Nat) (st : SpeechState) :
    ((resumeTimer text q st).1).nextTimerId = st.nextTimerId := by
  simp only [resumeTimer]
  split_ifs <;> simp

/-- The resumption after the debounce timer only appends entries carrying
the call's token. -/
theorem resumeTimer_log (text : String) (q : Nat) (st : SpeechState) :
    ∃ l, ((resumeTimer text q st).1).log = st.log ++ l ∧ ∀ e ∈ l, obsSeq e = q := by
  simp only [resumeTimer]
  split_ifs
  · exact ⟨[], by simp, by simp⟩
  · obtain ⟨l, hl, hq⟩ := speakBrowser_log q text
      { st with pendingSpeakTimer := none, log := st.log ++ [Obs.openaiInvoked q text] }
    refine ⟨[Obs.openaiInvoked q text] ++ l, ?_, ?_⟩
    · rw [hl]; simp
    · intro e he
      rcases List.mem_append.mp he with h | h
      · simp only [List.mem_singleton] at h
        simp [h, obsSeq]
      · exact hq e h
  · obtain ⟨l, hl, hq⟩ := speakBrowser_log q text
      { st with pendingSpeakTimer := none, log := st.log ++ [Obs.openaiInvoked q text] }
    refine ⟨[Obs.openaiInvoked q text] ++ l, ?_, ?_⟩
    · rw [hl]; simp
    · intro e he
      rcases List.mem_append.mp he with h | h
      · simp only [List.mem_singleton] at h
        simp [h, obsSeq]
      · exact hq e h
  · refine ⟨[Obs.openaiInvoked q text,
      Obs.networkRequest q (openaiClean text) st.openaiVoice], by simp, by simp [obsSeq]⟩

theorem resumeTimer_task_seq (text : String) (q : Nat) (st : SpeechState) :
    ∀ t, (resumeTimer text q st).2 = some t → taskSeq t = q := by
  intro t ht
  simp only [resumeTimer] at ht
  split_ifs at ht <;> simp_all <;> simp [← ht, taskSeq]

@[simp] theorem stepFetch_fst (st : SpeechState) (text clean : String) (q : Nat) (ok : Bool) :
    (stepFetch st text clean q ok).1 = st := by
  simp only [stepFetch]
  split_ifs <;> rfl

theorem stepFetch_task_seq (st : SpeechState) (text clean : String) (q : Nat) (ok : Bool) :
    ∀ t, (stepFetch st text clean q ok).2 = some t → taskSeq t = q := by
  intro t ht
  simp only [stepFetch] at ht
  split_ifs at ht <;> simp_all <;> simp [← ht, taskSeq]

@[simp] theorem stepCatch_speakSeq (st : SpeechState) (text : String) (q : Nat) :
    ((stepCatch st text q).1).speakSeq = st.speakSeq := by
  simp only [stepCatch]
  split_ifs <;> simp

@[simp] theorem stepCatch_pending (st : SpeechState) (text : String) (q : Nat) :
    ((stepCatch st text q).1).pendingSpeakTimer = st.pendingSpeakTimer := by
  simp only [stepCatch]
  split_ifs <;> simp

@[simp] theorem stepCatch_nextTimerId (st : SpeechState) (text : String) (q : Nat) :
    ((stepCatch st text q).1).nextTimerId = st.nextTimerId := by
  simp only [stepCatch]
  split_ifs <;> simp

@[simp] theorem stepCatch_snd (st : SpeechState) (text : String) (q : Nat) :
    (stepCatch st text q).2 = none := by
  simp only [stepCatch]
  split_ifs <;> rfl

theorem stepCatch_log (st : SpeechState) (text : String) (q : Nat) :
    ∃ l, ((stepCatch st text q).1).log = st.log ++ l ∧ ∀ e ∈ l, obsSeq e = q := by
  simp only [stepCatch]
  split_ifs
  · exact ⟨[], by simp, by simp⟩
  · exact speakBrowser_log q text st

@[simp] theorem stepBlob_speakSeq (st : SpeechState) (text clean : String) (q : Nat) :
    ((stepBlob st text clean q).1).speakSeq = st.speakSeq := by
  simp only [stepBlob]
  split_ifs <;> rfl

@[simp] theorem stepBlob_pending (st : SpeechState) (text clean : String) (q : Nat) :
    ((stepBlob st text clean q).1).pendingSpeakTimer = st.pendingSpeakTimer := by
  simp only [stepBlob]
  split_ifs <;> rfl

@[simp] theorem stepBlob_nextTimerId (st : SpeechState) (text clean : String) (q : Nat) :
    ((stepBlob st text clean q).1).nextTimerId = st.nextTimerId := by
  simp only [stepBlob]
  split_ifs <;> rfl

@[simp] theorem stepBlob_snd (st : SpeechState) (text clean : String) (q : Nat) :
    (stepBlob st text clean q).2 = none := by
  simp only [stepBlob]
  split_ifs <;> rfl

theorem stepBlob_log (st : SpeechState) (text clean : String) (q : Nat) :
    ∃ l, ((stepBlob st text clean q).1).log = st.log ++ l ∧ ∀ e ∈ l, obsSeq e = q := by
  simp only [stepBlob]
  split_ifs
  · exact ⟨[], by simp, by simp⟩
  · exact ⟨[Obs.audioPlay q st.nextAudioId clean], rfl, by simp [obsSeq]⟩

theorem doSpeak_nonblank (sys : Sys) (text : String) (h : blankQ text = false) :
    doSpeak (some text) sys =
      { st := { cancelAllSpeech sys.st with
                  pendingSpeakTimer := some (cancelAllSpeech sys.st).nextTimerId,
                  nextTimerId := (cancelAllSpeech sys.st).nextTimerId + 1 },
        tasks := sys.tasks ++
          [.atTimer text (cancelAllSpeech sys.st).speakSeq (cancelAllSpeech sys.st).nextTimerId] } := by
  simp [doSpeak, h]

/-! Per-action facts: the token never decreases, timer ids are allocated
monotonically, and a newly scheduled timer always carries the fresh id. -/

theorem doAction_speakSeq_le (sys : Sys) (a : Action) :
    sys.st.speakSeq ≤ (doAction sys a).st.speakSeq := by
  cases a with
  | callSpeak t? =>
    cases t? with
    | none => exact Nat.le_refl _
    | some text =>
      by_cases hb : blankQ text
      · simp [doAction, doSpeak, hb]
      · show _ ≤ (doSpeak (some text) sys).st.speakSeq
        rw [doSpeak_nonblank sys text (by simpa using hb)]
        simp [Nat.le_succ]
  | callCancelAll => simp [doAction, Nat.le_succ]
  | timerFires tid =>
    show _ ≤ (doTimer tid sys).st.speakSeq
    unfold doTimer
    split
    · split <;> simp
    · simp
  | fetchResolves s ok =>
    show _ ≤ (doFetch s ok sys).st.speakSeq
    unfold doFetch
    split <;> simp
  | fetchThrows s =>
    show _ ≤ (doFetchThrow s sys).st.speakSeq
    unfold doFetchThrow
    split <;> simp
  | jsonResolves s =>
    show _ ≤ (doJson s sys).st.speakSeq
    unfold doJson
    split <;> simp
  | blobResolves s =>
    show _ ≤ (doBlob s sys).st.speakSeq
    unfold doBlob
    split <;> simp
  | blobThrows s =>
    show _ ≤ (doBlobThrow s sys).st.speakSeq
    unfold doBlobThrow
    split <;> simp
  | audioEnds aid =>
    show _ ≤ (doAudioEnd aid sys).st.speakSeq
    unfold doAudioEnd
    split <;> simp

theorem doAction_nextTimerId_le (sys : Sys) (a : Action) :
    sys.st.nextTimerId ≤ (doAction sys a).st.nextTimerId := by
  cases a with
  | callSpeak t? =>
    cases t? with
    | none => exact Nat.le_refl _
    | some text =>
      by_cases hb : blankQ text
      · simp [doAction, doSpeak, hb]
      · show _ ≤ (doSpeak (some text) sys).st.nextTimerId
        rw [doSpeak_nonblank sys text (by simpa using hb)]
        simp [Nat.le_succ]
  | callCancelAll => simp [doAction]
  | timerFires tid =>
    show _ ≤ (doTimer tid sys).st.nextTimerId
    unfold doTimer
    split
    · split <;> simp
    · simp
  | fetchResolves s ok =>
    show _ ≤ (doFetch s ok sys).st.nextTimerId
    unfold doFetch
    split <;> simp
  | fetchThrows s =>
    show _ ≤ (doFetchThrow s sys).st.nextTimerId
    unfold doFetchThrow
    split <;> simp
  | jsonResolves s =>
    show _ ≤ (doJson s sys).st.nextTimerId
    unfold doJson
    split <;> simp
  | blobResolves s =>
    show _ ≤ (doBlob s sys).st.nextTimerId
    unfold doBlob
    split <;> simp
  | blobThrows s =>
    show _ ≤ (doBlobThrow s sys).st.nextTimerId
    unfold doBlobThrow
    split <;> simp
  | audioEnds aid =>
    show _ ≤ (doAudioEnd aid sys).st.nextTimerId
    unfold doAudioEnd
    split <;> simp

theorem doAction_pending_cases (sys : Sys) (a : Action) :
    (doAction sys a).st.pendingSpeakTimer = none ∨
    (doAction sys a).st.pendingSpeakTimer = sys.st.pendingSpeakTimer ∨
    (doAction sys a).st.pendingSpeakTimer = some sys.st.nextTimerId := by
  cases a with
  | callSpeak t? =>
    cases t? with
    | none => exact Or.inr (Or.inl rfl)
    | some text =>
      by_cases hb : blankQ text
      · exact Or.inr (Or.inl (by simp [doAction, doSpeak, hb]))
      · refine Or.inr (Or.inr ?_)
        show (doSpeak (some text) sys).st.pendingSpeakTimer = _
        rw [doSpeak_nonblank sys text (by simpa using hb)]
        simp
  | callCancelAll => exact Or.inl (by simp [doAction])
  | timerFires tid =>
    show (doTimer tid sys).st.pendingSpeakTimer = none ∨
      (doTimer tid sys).st.pendingSpeakTimer = sys.st.pendingSpeakTimer ∨
      (doTimer tid sys).st.pendingSpeakTimer = some sys.st.nextTimerId
    unfold doTimer
    split
    · split
      · exact Or.inl (by simp)
      · exact Or.inr (Or.inl rfl)
    · exact Or.inr (Or.inl rfl)
  | fetchResolves s ok =>
    refine Or.inr (Or.inl ?_)
    show (doFetch s ok sys).st.pendingSpeakTimer = _
    unfold doFetch
    split <;> simp
  | fetchThrows s =>
    refine Or.inr (Or.inl ?_)
    show (doFetchThrow s sys).st.pendingSpeakTimer = _
    unfold doFetchThrow
    split <;> simp
  | jsonResolves s =>
    refine Or.inr (Or.inl ?_)
    show (doJson s sys).st.pendingSpeakTimer = _
    unfold doJson
    split <;> simp
  | blobResolves s =>
    refine Or.inr (Or.inl ?_)
    show (doBlob s sys).st.pendingSpeakTimer = _
    unfold doBlob
    split <;> simp
  | blobThrows s =>
    refine Or.inr (Or.inl ?_)
    show (doBlobThrow s sys).st.pendingSpeakTimer = _
    unfold doBlobThrow
    split <;> simp
  | audioEnds aid =>
    refine Or.inr (Or.inl ?_)
    show (doAudioEnd aid sys).st.pendingSpeakTimer = _
    unfold doAudioEnd
    split <;> simp

/-! Abandonment of a superseded `speak` call.  `Pend A sA tidA sys` says:
the call with token `sA` for text `A` is (at most) waiting on its debounce
timer `tidA`, and nothing tagged `sA` has reached the log.  `Dead` adds
that timer `tidA` is no longer the scheduled one, so the call can never
resume: its promise was cleared by `clearTimeout` and will never
resolve. -/

structure Pend (A : String) (sA tidA : Nat) (sys : Sys) : Prop where
  tasksChar : ∀ t ∈ sys.tasks, taskSeq t = sA → t = Task.atTimer A sA tidA
  tidLt : tidA < sys.st.nextTimerId
  seqLe : sA ≤ sys.st.speakSeq
  logClean : ∀ e ∈ sys.st.log, obsSeq e ≠ sA

structure Dead (A : String) (sA tidA : Nat) (sys : Sys) extends Pend A sA tidA sys : Prop where
  notPending : sys.st.pendingSpeakTimer ≠ some tidA

theorem pend_doSpeak (A : String) (sA tidA : Nat) (sys : Sys)
    (h : Pend A sA tidA sys) (text? : Option String) :
    Pend A sA tidA (doSpeak text? sys) := by
  match text? with
  | none => exact h
  | some text =>
    by_cases hb : blankQ text
    · simpa [doSpeak, hb] using h
    · rw [doSpeak_nonblank sys text (by simpa using hb)]
      refine ⟨?_, ?_, ?_, ?_⟩
      · intro t ht hseq
        rcases List.mem_append.mp ht with h1 | h2
        · exact h.tasksChar t h1 hseq
        · simp only [List.mem_singleton] at h2
          subst h2
          simp only [taskSeq, cancelAllSpeech_speakSeq] at hseq
          exact absurd h.seqLe (by omega)
      · show tidA < (cancelAllSpeech sys.st).nextTimerId + 1
        have := h.tidLt
        simp only [cancelAllSpeech_nextTimerId]
        omega
      · show sA ≤ (cancelAllSpeech sys.st).speakSeq
        simp only [cancelAllSpeech_speakSeq]
        exact Nat.le_succ_of_le h.seqLe
      · show ∀ e ∈ (cancelAllSpeech sys.st).log, obsSeq e ≠ sA
        simpa using h.logClean

theorem pend_doCancel (A : String) (sA tidA : Nat) (sys : Sys)
    (h : Pend A sA tidA sys) :
    Pend A sA tidA { sys with st := cancelAllSpeech sys.st } := by
  refine ⟨h.tasksChar, ?_, ?_, ?_⟩
  · simp [h.tidLt]
  · simp [Nat.le_succ_of_le h.seqLe]
  · simpa using h.logClean

theorem pend_doTimer (A : String) (sA tidA : Nat) (sys : Sys)
    (h : Pend A sA tidA sys) (tid : Nat) (htid : tid ≠ tidA) :
    Pend A sA tidA (doTimer tid sys) := by
  unfold doTimer
  split
  · split
    · rename_i t q tid0 hfind
      have hmem : Task.atTimer t q tid0 ∈ sys.tasks := List.mem_of_find?_eq_some hfind
      have hpred := List.find?_some hfind
      simp only [isTimerTask, beq_iff_eq] at hpred
      subst hpred
      have hq : q ≠ sA := by
        intro hqs
        have heq2 := h.tasksChar _ hmem (by simp [taskSeq, hqs])
        injection heq2 with e1 e2 e3
        exact htid e3
      refine ⟨?_, ?_, ?_, ?_⟩
      · intro t' ht' hseq
        rcases List.mem_append.mp ht' with h1 | h2
        · exact h.tasksChar t' (List.eraseP_subset _ h1) hseq
        · rcases hr : (resumeTimer t q sys.st).2 with _ | t0 <;> rw [hr] at h2
          · simp at h2
          · simp only [Option.toList_some, List.mem_singleton] at h2
            subst h2
            exact absurd hseq (by rw [resumeTimer_task_seq t q sys.st t' hr]; exact hq)
      · simp [h.tidLt]
      · simp [h.seqLe]
      · intro e he
        obtain ⟨l, hl, hql⟩ := resumeTimer_log t q sys.st
        simp only [hl] at he
        rcases List.mem_append.mp he with h1 | h2
        · exact h.logClean e h1
        · rw [hql e h2]; exact hq
    · exact h
  · exact h

theorem pend_doResume (A : String) (sA tidA : Nat) (sys sys2 : Sys)
    (h : Pend A sA tidA sys)
    ( _text : String) (q : Nat) (p : Task → Bool) (t0 : Task)
    (hfind : sys.tasks.find? p = some t0) (hseq0 : taskSeq t0 = q)
    (hshape : ∀ text2 tid2, t0 ≠ Task.atTimer text2 sA tid2)
    (st2 : SpeechState) (task2 : Option Task)
    (hst : st2.speakSeq = sys.st.speakSeq) (hnt : st2.nextTimerId = sys.st.nextTimerId)
    (hlog : ∃ l, st2.log = sys.st.log ++ l ∧ ∀ e ∈ l, obsSeq e = q)
    (htask : ∀ t, task2 = some t → taskSeq t = q)
    (hsys2 : sys2 = { st := st2, tasks := sys.tasks.eraseP p ++ task2.toList }) :
    Pend A sA tidA sys2 := by
  have hmem : t0 ∈ sys.tasks := List.mem_of_find?_eq_some hfind
  have hq : q ≠ sA := by
    intro hqs
    exact hshape A tidA (by rw [h.tasksChar t0 hmem (hqs ▸ hseq0)])
  subst hsys2
  refine ⟨?_, ?_, ?_, ?_⟩
  · intro t' ht' hseq
    rcases List.mem_append.mp ht' with h1 | h2
    · exact h.tasksChar t' (List.eraseP_subset _ h1) hseq
    · rcases hr : task2 with _ | t1 <;> rw [hr] at h2
      · simp at h2
      · simp only [Option.toList_some, List.mem_singleton] at h2
        subst h2
        exact absurd hseq (by rw [htask t' hr]; exact hq)
  · simpa [hnt] using h.tidLt
  · simpa [hst] using h.seqLe
  · intro e he
    obtain ⟨l, hl, hql⟩ := hlog
    simp only [hl] at he
    rcases List.mem_append.mp he with h1 | h2
    · exact h.logClean e h1
    · rw [hql e h2]; exact hq

theorem pend_doAudioEnd (A : String) (sA tidA : Nat) (sys : Sys)
    (h : Pend A sA tidA sys) (aid : Nat) :
    Pend A sA tidA (doAudioEnd aid sys) := by
  unfold doAudioEnd
  split
  · exact ⟨h.tasksChar, h.tidLt, h.seqLe, h.logClean⟩
  · exact h

theorem pend_preserve (A : String) (sA tidA : Nat) (sys : Sys)
    (h : Pend A sA tidA sys) (a : Action) (ha : a ≠ Action.timerFires tidA) :
    Pend A sA tidA (doAction sys a) := by
  cases a with
  | callSpeak t? => exact pend_doSpeak A sA tidA sys h t?
  | callCancelAll => exact pend_doCancel A sA tidA sys h
  | timerFires tid =>
    refine pend_doTimer A sA tidA sys h tid ?_
    intro hh
    exact ha (by rw [hh])
  | fetchResolves s ok =>
    show Pend A sA tidA (doFetch s ok sys)
    unfold doFetch
    split
    · rename_i text clean q hfind
      exact pend_doResume A sA tidA sys _ h text q (isFetchTask s) _ hfind rfl
        (by intro text2 tid2 hne; exact absurd hne (by simp))
        _ _ (by simp) (by simp)
        (by rw [stepFetch_fst]; exact ⟨[], by simp, by simp⟩)
        (stepFetch_task_seq sys.st text clean q ok) rfl
    · exact h
  | fetchThrows s =>
    show Pend A sA tidA (doFetchThrow s sys)
    unfold doFetchThrow
    split
    · rename_i text clean q hfind
      exact pend_doResume A sA tidA sys _ h text q (isFetchTask s) _ hfind rfl
        (by intro text2 tid2 hne; exact absurd hne (by simp))
        _ _ (by simp) (by simp)
        (stepCatch_log sys.st text q)
        (by simp) rfl
    · exact h
  | jsonResolves s =>
    show Pend A sA tidA (doJson s sys)
    unfold doJson
    split
    · rename_i text q hfind
      exact pend_doResume A sA tidA sys _ h text q (isJsonTask s) _ hfind rfl
        (by intro text2 tid2 hne; exact absurd hne (by simp))
        _ _ (by simp) (by simp)
        (stepCatch_log sys.st text q)
        (by simp) rfl
    · exact h
  | blobResolves s =>
    show Pend A sA tidA (doBlob s sys)
    unfold doBlob
    split
    · rename_i text clean q hfind
      exact pend_doResume A sA tidA sys _ h text q (isBlobTask s) _ hfind rfl
        (by intro text2 tid2 hne; exact absurd hne (by simp))
        _ _ (by simp) (by simp)
        (stepBlob_log sys.st text clean q)
        (by simp) rfl
    · exact h
  | blobThrows s =>
    show Pend A sA tidA (doBlobThrow s sys)
    unfold doBlobThrow
    split
    · rename_i text clean q hfind
      exact pend_doResume A sA tidA sys _ h text q (isBlobTask s) _ hfind rfl
        (by intro text2 tid2 hne; exact absurd hne (by simp))
        _ _ (by simp) (by simp)
        (stepCatch_log sys.st text q)
        (by simp) rfl
    · exact h
  | audioEnds aid => exact pend_doAudioEnd A sA tidA sys h aid

theorem dead_preserve (A : String) (sA tidA : Nat) (sys : Sys)
    (h : Dead A sA tidA sys) (a : Action) :
    Dead A sA tidA (doAction sys a) := by
  by_cases ha : a = Action.timerFires tidA
  · subst ha
    show Dead A sA tidA (doTimer tidA sys)
    unfold doTimer
    rw [if_neg h.notPending]
    exact h
  · refine ⟨pend_preserve A sA tidA sys h.toPend a ha, ?_⟩
    rcases doAction_pending_cases sys a with hp | hp | hp
    · rw [hp]
      exact fun hh => Option.noConfusion hh
    · rw [hp]
      exact h.notPending
    · rw [hp]
      have := h.tidLt
      simp only [ne_eq, Option.some.injEq]
      omega

theorem dead_run (A : String) (sA tidA : Nat) (sys : Sys)
    (h : Dead A sA tidA sys) (acts : List Action) :
    Dead A sA tidA (run sys acts) := by
  induction acts generalizing sys with
  | nil => exact h
  | cons a acts ih => exact ih (doAction sys a) (dead_preserve A sA tidA sys h a)

theorem pend_run (A : String) (sA tidA : Nat) (sys : Sys)
    (h : Pend A sA tidA sys) (acts : List Action)
    (hacts : Action.timerFires tidA ∉ acts) :
    Pend A sA tidA (run sys acts) := by
  induction acts generalizing sys with
  | nil => exact h
  | cons a acts ih =>
    simp only [List.mem_cons, not_or] at hacts
    exact ih (doAction sys a)
      (pend_preserve A sA tidA sys h a (fun hh => hacts.1 hh.symm)) hacts.2

/-- After a further non-blank `speak(B)`, the timer of the pending call
`(A, sA, tidA)` can never fire again: `cancelAllSpeech` cleared it and
every later timer gets a fresh, larger id. -/
theorem pend_dead_of_speakB (A B : String) (sA tidA : Nat) (sys : Sys)
    (h : Pend A sA tidA sys) (hB : blankQ B = false) :
    Dead A sA tidA (doSpeak (some B) sys) := by
  refine ⟨pend_doSpeak A sA tidA sys h (some B), ?_⟩
  rw [doSpeak_nonblank sys B hB]
  show some (cancelAllSpeech sys.st).nextTimerId ≠ some tidA
  have := h.tidLt
  simp only [cancelAllSpeech_nextTimerId, ne_eq, Option.some.injEq]
  omega

/-! The claims. -/

/-- Claim C1: for two calls `speak(A)` then `speak(B)` where B is issued
before A's 250ms debounce timer has fired, A's text never reaches either
backend — no invocation of `speakWithOpenAI` or `speakBrowser` carrying A's
generation token ever appears in the log, no matter what happens
afterwards.  `mid` is whatever runs between the two calls (anything except
the firing of A's timer `tidA`), `post` is an arbitrary continuation. -/
theorem claim_C1 (sys0 : Sys) (A B : String) (sA tidA : Nat)
    (hwfTasks : ∀ t ∈ sys0.tasks, taskSeq t ≤ sys0.st.speakSeq)
    (hwfLog : ∀ e ∈ sys0.st.log, obsSeq e ≤ sys0.st.speakSeq)
    (hA : blankQ A = false) (hB : blankQ B = false)
    (hsA : sA = sys0.st.speakSeq + 1) (htidA : tidA = sys0.st.nextTimerId)
    (mid post : List Action) (hmid : Action.timerFires tidA ∉ mid) :
    Obs.openaiInvoked sA A ∉
      (run (doAction (run (doAction sys0 (.callSpeak (some A))) mid)
        (.callSpeak (some B))) post).st.log ∧
    Obs.browserInvoked sA A ∉
      (run (doAction (run (doAction sys0 (.callSpeak (some A))) mid)
        (.callSpeak (some B))) post).st.log ∧
    ∀ e ∈ (run (doAction (run (doAction sys0 (.callSpeak (some A))) mid)
        (.callSpeak (some B))) post).st.log, obsSeq e ≠ sA := by
  have hP1 : Pend A sA tidA (doAction sys0 (.callSpeak (some A))) := by
    show Pend A sA tidA (doSpeak (some A) sys0)
    rw [doSpeak_nonblank sys0 A hA]
    refine ⟨?_, ?_, ?_, ?_⟩
    · intro t ht hseq
      rcases List.mem_append.mp ht with h1 | h2
      · have := hwfTasks t h1
        exact absurd hseq (by omega)
      · simp only [List.mem_singleton] at h2
        subst h2
        simp [cancelAllSpeech_speakSeq, cancelAllSpeech_nextTimerId, hsA, htidA]
    · show tidA < (cancelAllSpeech sys0.st).nextTimerId + 1
      simp only [cancelAllSpeech_nextTimerId, htidA]
      omega
    · show sA ≤ (cancelAllSpeech sys0.st).speakSeq
      simp only [cancelAllSpeech_speakSeq, hsA]
      omega
    · show ∀ e ∈ (cancelAllSpeech sys0.st).log, obsSeq e ≠ sA
      intro e he
      simp only [cancelAllSpeech_log] at he
      have := hwfLog e he
      omega
  have hP2 := pend_run A sA tidA _ hP1 mid hmid
  have hD : Dead A sA tidA
      (doAction (run (doAction sys0 (.callSpeak (some A))) mid) (.callSpeak (some B))) :=
    pend_dead_of_speakB A B sA tidA _ hP2 hB
  have hD2 := dead_run A sA tidA _ hD post
  refine ⟨?_, ?_, hD2.logClean⟩
  · intro hm
    exact hD2.logClean _ hm (by simp [obsSeq])
  · intro hm
    exact hD2.logClean _ hm (by simp [obsSeq])

theorem claim_C1_witness :
    Obs.openaiInvoked 1 ("A") ∉
      (run (doAction (run (doAction (initSys ("")) (.callSpeak (some ("A")))) [])
        (.callSpeak (some ("B")))) [.timerFires 1, .timerFires 0]).st.log :=
  (claim_C1 (initSys ("")) ("A") ("B") 1 0
    (by intro t ht; simp [initSys] at ht)
    (by intro e he; simp [initSys, initState] at he)
    (by decide) (by decide) (by decide) (by decide)
    [] [.timerFires 1, .timerFires 0] (by decide)).1

/-- Claim C2: a network response (or payload) that resolves under token `T`
after the current token has been incremented past `T` produces nothing:
the state is unchanged (no audio element is created or played, nothing is
logged) and no continuation is scheduled, so the controller never invokes
the local fallback for that call.  This covers the response-headers
suspension point (`stepFetch`), the payload point (`stepBlob`), and the
error/exception paths (`stepCatch`). -/
theorem claim_C2 (st : SpeechState) (text clean : String) (T : Nat) (ok : Bool)
    (h : T < st.speakSeq) :
    stepFetch st text clean T ok = (st, none) ∧
    stepBlob st text clean T = (st, none) ∧
    stepCatch st text T = (st, none) := by
  have hne : st.speakSeq ≠ T := by omega
  refine ⟨?_, ?_, ?_⟩ <;> simp [stepFetch, stepBlob, stepCatch, hne]

theorem claim_C2_witness :
    stepFetch { initState ("") with speakSeq := 2 } ("a") ("a") 1 true =
      ({ initState ("") with speakSeq := 2 }, none) :=
  (claim_C2 { initState ("") with speakSeq := 2 } ("a") ("a") 1 true (by decide)).1

/-- Claim C6: `speak` with an empty or whitespace-only string is a total
no-op — the whole system state (token, timer, audio handle, log, tasks) is
returned unchanged. -/
theorem claim_C6 (sys : Sys) (text : String) (h : blankQ text = true) :
    doAction sys (.callSpeak (some text)) = sys := by
  simp [doAction, doSpeak, h]

theorem claim_C6_witness :
    doAction (initSys ("")) (.callSpeak (some ("   "))) = initSys ("") :=
  claim_C6 (initSys ("")) ("   ") (by decide)

/-- Claim C10: `speak` at the entry point never fails on null/undefined
input — the optional-chaining guard makes it return immediately with no
state change, exactly as for the empty string. -/
theorem claim_C10 :
    (∀ sys : Sys, doAction sys (.callSpeak none) = sys) ∧
    (∀ sys : Sys, doAction sys (.callSpeak (some (""))) = sys) := by
  constructor
  · intro sys
    rfl
  · intro sys
    have hb : blankQ ("") = true := by decide
    simp [doAction, doSpeak, hb]

/-- On a state with nothing active, one `cancelAllSpeech` only bumps the
token. -/
theorem cancelAllSpeech_inactive (st : SpeechState) (h1 : st.pendingSpeakTimer = none)
    (h2 : st.currentTTSAudio = none) (h3 : st.synthUtterance = none) :
    cancelAllSpeech st = { st with speakSeq := st.speakSeq + 1 } := by
  simp only [cancelAllSpeech]
  split_ifs <;> simp_all [SpeechState.mk.injEq]

/-- Claim C7: `cancelAll` twice in a row with no pending timer, no playing
audio and no local utterance leaves everything unchanged except the
generation token, which grows by exactly two. -/
theorem claim_C7 (st : SpeechState) (h1 : st.pendingSpeakTimer = none)
    (h2 : st.currentTTSAudio = none) (h3 : st.synthUtterance = none) :
    cancelAllSpeech (cancelAllSpeech st) = { st with speakSeq := st.speakSeq + 2 } := by
  have e1 := cancelAllSpeech_inactive st h1 h2 h3
  have e2 := cancelAllSpeech_inactive { st with speakSeq := st.speakSeq + 1 } h1 h2 h3
  rw [e1, e2]

theorem claim_C7_witness :
    cancelAllSpeech (cancelAllSpeech (initState (""))) =
      { initState ("") with speakSeq := (initState ("")).speakSeq + 2 } :=
  claim_C7 (initState ("")) rfl rfl rfl

/-- Claim C8: the generation token is strictly monotone.  It never
decreases under any event; each non-blank `speak` and each `cancelAll`
increments it by exactly one; every other event leaves it unchanged; and a
value once strictly below the current token stays below it forever (no
reuse). -/
theorem claim_C8 :
    (∀ (sys : Sys) (a : Action), sys.st.speakSeq ≤ (doAction sys a).st.speakSeq) ∧
    (∀ (sys : Sys) (text : String), blankQ text = false →
      (doAction sys (.callSpeak (some text))).st.speakSeq = sys.st.speakSeq + 1) ∧
    (∀ sys : Sys, (doAction sys .callCancelAll).st.speakSeq = sys.st.speakSeq + 1) ∧
    (∀ (sys : Sys) (a : Action), (∀ t?, a ≠ .callSpeak t?) → a ≠ .callCancelAll →
      (doAction sys a).st.speakSeq = sys.st.speakSeq) ∧
    (∀ (sys : Sys) (acts : List Action) (v : Nat), v < sys.st.speakSeq →
      v < (run sys acts).st.speakSeq) := by
  refine ⟨doAction_speakSeq_le, ?_, ?_, ?_, ?_⟩
  · intro sys text h
    show (doSpeak (some text) sys).st.speakSeq = _
    rw [doSpeak_nonblank sys text h]
    simp
  · intro sys
    simp [doAction]
  · intro sys a hs hc
    cases a with
    | callSpeak t? => exact absurd rfl (hs t?)
    | callCancelAll => exact absurd rfl hc
    | timerFires tid =>
      show (doTimer tid sys).st.speakSeq = _
      unfold doTimer
      split
      · split <;> simp
      · rfl
    | fetchResolves s ok =>
      show (doFetch s ok sys).st.speakSeq = _
      unfold doFetch
      split <;> simp
    | fetchThrows s =>
      show (doFetchThrow s sys).st.speakSeq = _
      unfold doFetchThrow
      split <;> simp
    | jsonResolves s =>
      show (doJson s sys).st.speakSeq = _
      unfold doJson
      split <;> simp
    | blobResolves s =>
      show (doBlob s sys).st.speakSeq = _
      unfold doBlob
      split <;> simp
    | blobThrows s =>
      show (doBlobThrow s sys).st.speakSeq = _
      unfold doBlobThrow
      split <;> simp
    | audioEnds aid =>
      show (doAudioEnd aid sys).st.speakSeq = _
      unfold doAudioEnd
      split <;> simp
  · intro sys acts v hv
    induction acts generalizing sys with
    | nil => exact hv
    | cons a acts ih =>
      exact ih (doAction sys a) (Nat.lt_of_lt_of_le hv (doAction_speakSeq_le sys a))

theorem claim_C8_witness :
    (doAction (initSys ("")) (.callSpeak (some ("hi")))).st.speakSeq =
      (initSys ("")).st.speakSeq + 1 :=
  claim_C8.2.1 (initSys ("")) ("hi") (by decide)

/-- Claim C9: the local backend's voice selection order.  With a chosen
identifier set, the voice is looked up by that identifier; otherwise the
first non-local-service English voice is preferred, then any English
voice, then the first available voice; with no voices at all the selection
is empty (and the utterance is still spoken with no explicit voice,
final conjunct). -/
theorem claim_C9 (id : String) (voices : List Voice) :
    (id ≠ ("") → (∃ v ∈ voices, v.voiceURI = id) →
      ∃ w ∈ voices, chooseVoice id voices = some w ∧ w.voiceURI = id) ∧
    (id = ("") → (∃ v ∈ voices, startsWithEn v.lang = true ∧ v.localService = false) →
      ∃ w ∈ voices, chooseVoice id voices = some w ∧
        startsWithEn w.lang = true ∧ w.localService = false) ∧
    (id = ("") → (∀ v ∈ voices, ¬(startsWithEn v.lang = true ∧ v.localService = false)) →
      (∃ v ∈ voices, startsWithEn v.lang = true) →
      ∃ w ∈ voices, chooseVoice id voices = some w ∧ startsWithEn w.lang = true) ∧
    (id = ("") → (∀ v ∈ voices, startsWithEn v.lang = false) →
      chooseVoice id voices = voices.head?) ∧
    (chooseVoice id [] = none) ∧
    (∀ (st : SpeechState) (seq : Nat) (text : String),
      st.synthAvailable = true → st.browserVoices = [] → browserClean text ≠ ("") →
      (speakBrowser seq text st).log = st.log ++
        [Obs.browserInvoked seq text,
         Obs.synthSpeak seq (browserClean text) (chooseVoice st.selectedVoiceId [])]) := by
  refine ⟨?_, ?_, ?_, ?_, ?_, ?_⟩
  · intro hid hex
    have hbe : (id == ("")) = false := beq_eq_false_iff_ne.mpr hid
    have hsome : ∃ x ∈ voices, (x.voiceURI == id) = true := by
      obtain ⟨v, hv, hvi⟩ := hex
      exact ⟨v, hv, by simp [hvi]⟩
    rw [← List.find?_isSome] at hsome
    obtain ⟨w, hw⟩ := Option.isSome_iff_exists.mp hsome
    refine ⟨w, List.mem_of_find?_eq_some hw, by simp [chooseVoice, hbe, hw], ?_⟩
    have := List.find?_some hw
    simpa using this
  · intro hid hex
    have hsome : ∃ x ∈ voices, (startsWithEn x.lang && !x.localService) = true := by
      obtain ⟨v, hv, hv1, hv2⟩ := hex
      exact ⟨v, hv, by simp [hv1, hv2]⟩
    rw [← List.find?_isSome] at hsome
    obtain ⟨w, hw⟩ := Option.isSome_iff_exists.mp hsome
    have hpw := List.find?_some hw
    simp only [Bool.and_eq_true, Bool.not_eq_true'] at hpw
    exact ⟨w, List.mem_of_find?_eq_some hw,
      by simp [chooseVoice, hid, hw, Option.orElse], hpw.1, hpw.2⟩
  · intro hid hnone hex
    have h1 : voices.find? (fun v => startsWithEn v.lang && !v.localService) = none := by
      rw [List.find?_eq_none]
      intro v hv
      have := hnone v hv
      simp only [Bool.and_eq_true, Bool.not_eq_true']
      tauto
    have hsome : ∃ x ∈ voices, startsWithEn x.lang = true := hex
    rw [← List.find?_isSome] at hsome
    obtain ⟨w, hw⟩ := Option.isSome_iff_exists.mp hsome
    have hpw := List.find?_some hw
    exact ⟨w, List.mem_of_find?_eq_some hw,
      by simp [chooseVoice, hid, h1, hw, Option.orElse], hpw⟩
  · intro hid hall
    have h1 : voices.find? (fun v => startsWithEn v.lang && !v.localService) = none := by
      rw [List.find?_eq_none]
      intro v hv
      simp [hall v hv]
    have h2 : voices.find? (fun v => startsWithEn v.lang) = none := by
      rw [List.find?_eq_none]
      intro v hv
      simp [hall v hv]
    simp [chooseVoice, hid, h1, h2, Option.orElse]
  · cases hid : (id == ("")) <;> simp [chooseVoice, hid]
  · intro st seq text hsy hbv hbc
    have hbcb : (browserClean text == ("")) = false := beq_eq_false_iff_ne.mpr hbc
    simp [speakBrowser, hsy, hbv, hbcb]

/-- Claim C4: with no credential configured, a non-blank `speak(text)`
whose debounce runs uncontested performs zero network requests — the
remote adapter bails out at the missing-key guard — and invokes the local
backend exactly once, with the original text.  The local utterance is
audible whenever the local sanitization of the text is non-empty. -/
theorem claim_C4 (text : String) (ht : blankQ text = false) :
    (run (initSys ("")) [.callSpeak (some text), .timerFires 0]).st.log =
      [Obs.openaiInvoked 1 text, Obs.browserInvoked 1 text] ++
        (if browserClean text = ("") then []
         else [Obs.synthSpeak 1 (browserClean text) none]) ∧
    networkCount (run (initSys ("")) [.callSpeak (some text), .timerFires 0]).st.log = 0 ∧
    browserCount (run (initSys ("")) [.callSpeak (some text), .timerFires 0]).st.log = 1 := by
  by_cases hbc : browserClean text = ("")
  · have hbcb : (browserClean text == ("")) = true := by simp [hbc]
    simp [run, doAction, doSpeak, ht, initSys, initState, cancelAllSpeech,
      doTimer, isTimerTask, resumeTimer, speakBrowser, chooseVoice,
      List.find?, List.eraseP, networkCount, browserCount,
      isNetworkObs, isBrowserObs, hbc, hbcb]
  · have hbcb : (browserClean text == ("")) = false := beq_eq_false_iff_ne.mpr hbc
    simp [run, doAction, doSpeak, ht, initSys, initState, cancelAllSpeech,
      doTimer, isTimerTask, resumeTimer, speakBrowser, chooseVoice,
      List.find?, List.eraseP, networkCount, browserCount,
      isNetworkObs, isBrowserObs, hbc, hbcb]

theorem claim_C4_witness :
    networkCount (run (initSys ("")) [.callSpeak (some ("hello")), .timerFires 0]).st.log = 0 :=
  (claim_C4 ("hello") (by decide)).2.1

/-- Claim C5: with a credential configured, when the network responds with
a non-success status while the token is still current, the remote adapter
returns a failure without raising (the error branch merely logs), and the
controller then invokes the local backend exactly once with the original,
uncleaned text. -/
theorem claim_C5 (key text : String) (hk : key ≠ ("")) (ht : blankQ text = false)
    (hc : openaiClean text ≠ ("")) :
    (run (initSys key)
        [.callSpeak (some text), .timerFires 0, .fetchResolves 1 false, .jsonResolves 1]).st.log =
      [Obs.openaiInvoked 1 text, Obs.networkRequest 1 (openaiClean text) ("nova"),
       Obs.browserInvoked 1 text] ++
        (if browserClean text = ("") then []
         else [Obs.synthSpeak 1 (browserClean text) none]) ∧
    browserCount (run (initSys key)
        [.callSpeak (some text), .timerFires 0, .fetchResolves 1 false, .jsonResolves 1]).st.log
      = 1 ∧
    networkCount (run (initSys key)
        [.callSpeak (some text), .timerFires 0, .fetchResolves 1 false, .jsonResolves 1]).st.log
      = 1 := by
  have hkb : (key == ("")) = false := beq_eq_false_iff_ne.mpr hk
  have hcb : (openaiClean text == ("")) = false := beq_eq_false_iff_ne.mpr hc
  by_cases hbc : browserClean text = ("")
  · have hbcb : (browserClean text == ("")) = true := by simp [hbc]
    simp [run, doAction, doSpeak, ht, initSys, initState, cancelAllSpeech,
      doTimer, isTimerTask, resumeTimer, speakBrowser, chooseVoice,
      doFetch, isFetchTask, stepFetch, doJson, isJsonTask, stepCatch,
      List.find?, List.eraseP, networkCount, browserCount,
      isNetworkObs, isBrowserObs, hkb, hcb, hbc, hbcb]
  · have hbcb : (browserClean text == ("")) = false := beq_eq_false_iff_ne.mpr hbc
    simp [run, doAction, doSpeak, ht, initSys, initState, cancelAllSpeech,
      doTimer, isTimerTask, resumeTimer, speakBrowser, chooseVoice,
      doFetch, isFetchTask, stepFetch, doJson, isJsonTask, stepCatch,
      List.find?, List.eraseP, networkCount, browserCount,
      isNetworkObs, isBrowserObs, hkb, hcb, hbc, hbcb]

theorem claim_C5_witness :
    browserCount (run (initSys ("sk"))
        [.callSpeak (some ("hello")), .timerFires 0, .fetchResolves 1 false, .jsonResolves 1]).st.log
      = 1 :=
  (claim_C5 ("sk") ("hello") (by decide) (by decide) (by decide)).2.1

/-- Claim C3 counterexample: the input 😀 is non-empty, its remote
sanitization is empty, a credential is configured, and the token is never
contested — yet the local backend IS invoked (with the original text) and
an audible local utterance IS produced, because `speak` falls back
whenever `speakWithOpenAI` returns false, and `speakBrowser`'s own
sanitization of 😀 is non-empty.  (No network request occurs, as the
claim expects.) -/
theorem claim_C3_counterexample :
    blankQ ("😀") = false ∧ openaiClean ("😀") = ("") ∧
    networkCount (run (initSys ("sk")) [.callSpeak (some ("😀")), .timerFires 0]).st.log = 0 ∧
    Obs.browserInvoked 1 ("😀") ∈
      (run (initSys ("sk")) [.callSpeak (some ("😀")), .timerFires 0]).st.log ∧
    Obs.synthSpeak 1 ("😀") none ∈
      (run (initSys ("sk")) [.callSpeak (some ("😀")), .timerFires 0]).st.log :=
  ⟨by decide, by decide, by decide, by decide, by decide⟩

/-- Claim C3 as amended: for every non-blank input whose remote
sanitization is empty while a credential is configured and the token is
uncontested, the remote adapter returns did-not-speak without any network
call, and the controller DOES fall back to the local backend: exactly one
local-backend invocation occurs, with the original uncleaned text, and it
is audible precisely when the local sanitization of the original text is
non-empty. -/
theorem claim_C3 (key text : String) (hk : key ≠ ("")) (ht : blankQ text = false)
    (hc : openaiClean text = ("")) :
    (run (initSys key) [.callSpeak (some text), .timerFires 0]).st.log =
      [Obs.openaiInvoked 1 text, Obs.browserInvoked 1 text] ++
        (if browserClean text = ("") then []
         else [Obs.synthSpeak 1 (browserClean text) none]) ∧
    networkCount (run (initSys key) [.callSpeak (some text), .timerFires 0]).st.log = 0 ∧
    browserCount (run (initSys key) [.callSpeak (some text), .timerFires 0]).st.log = 1 := by
  have hkb : (key == ("")) = false := beq_eq_false_iff_ne.mpr hk
  have hcb : (openaiClean text == ("")) = true := by simp [hc]
  by_cases hbc : browserClean text = ("")
  · have hbcb : (browserClean text == ("")) = true := by simp [hbc]
    simp [run, doAction, doSpeak, ht, initSys, initState, cancelAllSpeech,
      doTimer, isTimerTask, resumeTimer, speakBrowser, chooseVoice,
      List.find?, List.eraseP, networkCount, browserCount,
      isNetworkObs, isBrowserObs, hkb, hcb, hbc, hbcb]
  · have hbcb : (browserClean text == ("")) = false := beq_eq_false_iff_ne.mpr hbc
    simp [run, doAction, doSpeak, ht, initSys, initState, cancelAllSpeech,
      doTimer, isTimerTask, resumeTimer, speakBrowser, chooseVoice,
      List.find?, List.eraseP, networkCount, browserCount,
      isNetworkObs, isBrowserObs, hkb, hcb, hbc, hbcb]

theorem claim_C3_witness :
    browserCount (run (initSys ("sk")) [.callSpeak (some ("😀")), .timerFires 0]).st.log = 1 :=
  (claim_C3 ("sk") ("😀") (by decide) (by decide) (by decide)).2.2

theorem claim_C9_witness :
    chooseVoice ("")
        [{ voiceURI := ("u1"), name := ("French"), lang := ("fr"), localService := true }] =
      ([{ voiceURI := ("u1"), name := ("French"), lang := ("fr"), localService := true }] :
        List Voice).head? :=
  (claim_C9 ("")
    [{ voiceURI := ("u1"), name := ("French"), lang := ("fr"), localService := true }]
    ).2.2.2.1 rfl (by decide)

end GymBuddy
